import Mathlib

/-!
Shallow embedding of the DSP-in-C repository (wavgen.c and wavproc01.c).

Floating-point values (C `float` / `double`) are modelled as exact rationals;
machine integers are modelled as `Nat` / `Int` with explicit `% 2^w` reduction
at the points where the C code performs narrowing conversions.  File contents
are modelled as lists of byte values (`List Nat`, each element < 256 for every
list built by the writers).
-/

namespace Wav

/-- Behaviour of C `lrintf` under the default rounding mode `FE_TONEAREST`:
round to the nearest integer, ties to even (wavgen.c:89, wavproc01.c:85). -/
def lrint (x : ℚ) : Int :=
  if x - ⌊x⌋ < 1/2 then ⌊x⌋
  else if x - ⌊x⌋ > 1/2 then ⌊x⌋ + 1
  else if ⌊x⌋ % 2 = 0 then ⌊x⌋ else ⌊x⌋ + 1

/-- Behaviour of C `llround`: round to the nearest integer, halfway cases away
from zero regardless of rounding mode (wavgen.c:216). -/
def llround (x : ℚ) : Int :=
  if 0 ≤ x then ⌊x + 1/2⌋ else -⌊-x + 1/2⌋

/-- wavproc01.c:73-77, `s16_to_float`: map [-32768, 32767] to approximately
[-1, 1), with -32768 sent to exactly -1. -/
def s16_to_float (s : Int) : ℚ :=
  if s = -32768 then -1 else (s : ℚ) / 32767

/-- wavgen.c:79-96 and wavproc01.c:79-89, `float_to_s16`: clamp the input to
[-1, 1], scale by 32767, round with `lrintf`, clamp the integer result to
[-32768, 32767]. -/
def float_to_s16 (x : ℚ) : Int :=
  let x1 := if x > 1 then 1 else x
  let x2 := if x1 < -1 then -1 else x1
  let v := lrint (x2 * 32767)
  let v1 := if v > 32767 then 32767 else v
  if v1 < -32768 then -32768 else v1

/-! ### Little-endian byte serialization (write_u16_le / write_u32_le and
read_u16_le / read_u32_le in both source files) -/

/-- wavgen.c:36-57 and wavproc01.c:31-41, `write_u16_le`. -/
def u16le (v : Nat) : List Nat :=
  [v % 256, v / 256 % 256]

/-- wavgen.c:61-68 and wavproc01.c:43-50, `write_u32_le`. -/
def u32le (v : Nat) : List Nat :=
  [v % 256, v / 256 % 256, v / 65536 % 256, v / 16777216 % 256]

/-- wavproc01.c:52-62, `read_u16_le`; `none` models the fatal truncated-read
error.  The `% 256` reductions express that file contents are `uint8_t`. -/
def readU16 : List Nat → Option (Nat × List Nat)
  | a :: b :: rest => some (a % 256 + 256 * (b % 256), rest)
  | _ => none

/-- wavproc01.c:64-71, `read_u32_le`. -/
def readU32 : List Nat → Option (Nat × List Nat)
  | a :: b :: c :: d :: rest =>
      some (a % 256 + 256 * (b % 256) + 65536 * (c % 256) + 16777216 * (d % 256), rest)
  | _ => none

/-- A 4-byte tag read, `fread(id, 1, 4, f)` in wavproc01.c:119/123/130. -/
def rd4 : List Nat → Option (List Nat × List Nat)
  | a :: b :: c :: d :: rest => some ([a, b, c, d], rest)
  | _ => none

/-- The C cast `(uint16_t)s` applied to an `int16_t` sample before
`write_u16_le` (wavgen.c:299, wavproc01.c:234/252). -/
def u16ofS16 (s : Int) : Nat :=
  (s % 65536).toNat

/-- The C cast `(int16_t)` applied to the `uint16_t` returned by
`read_u16_le` (wavproc01.c:230/248). -/
def int16ofU16 (v : Nat) : Int :=
  if v % 65536 < 32768 then (v % 65536 : Nat) else (v % 65536 : Int) - 65536

/-- Bytes written for one sample: `write_u16_le(f, (uint16_t)s)`. -/
def sampleBytes (s : Int) : List Nat :=
  u16le (u16ofS16 s)

/-- Byte stream of a whole sample list, in stream order. -/
def samplesToBytes : List Int → List Nat
  | [] => []
  | s :: rest => sampleBytes s ++ samplesToBytes rest

/-! ### Basic lemmas about the codec and serialization -/

theorem lrint_intCast (n : Int) : lrint (n : ℚ) = n := by
  unfold lrint
  have h : ⌊(n : ℚ)⌋ = n := Int.floor_intCast n
  rw [h]
  simp

theorem lrint_ge_floor (x : ℚ) : ⌊x⌋ ≤ lrint x := by
  unfold lrint
  split
  · exact le_refl _
  · split
    · omega
    · split
      · exact le_refl _
      · omega

theorem lrint_lower (x : ℚ) (n : Int) (h : (n : ℚ) ≤ x) : n ≤ lrint x :=
  le_trans (Int.le_floor.mpr h) (lrint_ge_floor x)

theorem lrint_le (x : ℚ) (n : Int) (h : x ≤ (n : ℚ)) : lrint x ≤ n := by
  have hfl : ⌊x⌋ ≤ n := by
    have h2 := Int.floor_le_floor h
    simpa using h2
  by_cases heq : ⌊x⌋ = n
  · have hlt : x - ⌊x⌋ < 1/2 := by
      have hx : x ≤ (n : ℚ) := h
      rw [heq]
      linarith
    unfold lrint
    rw [if_pos hlt]
    omega
  · have hsucc : ⌊x⌋ + 1 ≤ n := by omega
    unfold lrint
    split
    · omega
    · split
      · omega
      · split
        · omega
        · omega

theorem float_to_s16_mem (x : ℚ) :
    -32767 ≤ float_to_s16 x ∧ float_to_s16 x ≤ 32767 := by
  have key : ∀ y : ℚ, -1 ≤ y → y ≤ 1 →
      -32767 ≤ lrint (y * 32767) ∧ lrint (y * 32767) ≤ 32767 := by
    intro y h1 h2
    constructor
    · exact lrint_lower _ _ (by push_cast; nlinarith)
    · exact lrint_le _ _ (by push_cast; nlinarith)
  simp only [float_to_s16]
  split_ifs <;>
    first
      | (exfalso; linarith)
      | omega
      | (have k := key 1 (by norm_num) (by norm_num) ; omega)
      | (have k := key (-1) (by norm_num) (by norm_num) ; omega)
      | (have k := key x (by linarith) (by linarith) ; omega)

/-- The decode-then-encode round trip is exact on [-32767, 32767]. -/
theorem encode_decode_roundtrip (s : Int) (h1 : -32767 ≤ s) (h2 : s ≤ 32767) :
    float_to_s16 (s16_to_float s) = s := by
  have hs : s16_to_float s = (s : ℚ) / 32767 := by
    unfold s16_to_float
    rw [if_neg (by omega)]
  have hle : (s : ℚ) / 32767 ≤ 1 := by
    rw [div_le_one (by norm_num)]
    exact_mod_cast h2
  have hge : (-1 : ℚ) ≤ (s : ℚ) / 32767 := by
    rw [le_div_iff₀ (by norm_num)]
    have : (-32767 : ℚ) ≤ (s : ℚ) := by exact_mod_cast h1
    linarith
  rw [hs]
  simp only [float_to_s16]
  rw [if_neg (not_lt.mpr hle), if_neg (not_lt.mpr hge),
    div_mul_cancel₀ _ (by norm_num : (32767 : ℚ) ≠ 0), lrint_intCast,
    if_neg (by omega), if_neg (by omega)]

theorem s16_to_float_mem (s : Int) (h1 : -32768 ≤ s) (h2 : s ≤ 32767) :
    -1 ≤ s16_to_float s ∧ s16_to_float s ≤ 1 := by
  unfold s16_to_float
  split
  · norm_num
  · constructor
    · rw [le_div_iff₀ (by norm_num)]
      have hs1 : (-32767 : Int) ≤ s := by omega
      have : (-32767 : ℚ) ≤ (s : ℚ) := by exact_mod_cast hs1
      linarith
    · rw [div_le_one (by norm_num)]
      exact_mod_cast le_trans h2 (by norm_num)

theorem s16_to_float_eq_neg_one_iff (s : Int) :
    s16_to_float s = -1 ↔ s = -32768 ∨ s = -32767 := by
  unfold s16_to_float
  split
  · simp
    omega
  · rw [div_eq_iff (by norm_num : (32767 : ℚ) ≠ 0)]
    constructor
    · intro h
      right
      have h2 : (s : ℚ) = -32767 := by linarith
      exact_mod_cast h2
    · intro h
      rcases h with h | h
      · omega
      · subst h
        norm_num

/-! ### Serialization lemmas -/

theorem u16le_length (v : Nat) : (u16le v).length = 2 := rfl

theorem u32le_length (v : Nat) : (u32le v).length = 4 := rfl

theorem readU16_u16le (v : Nat) (r : List Nat) :
    readU16 (u16le v ++ r) = some (v % 65536, r) := by
  simp only [u16le, List.cons_append, List.nil_append, readU16,
    Option.some.injEq, Prod.mk.injEq]
  exact ⟨by omega, trivial⟩

theorem readU32_u32le (v : Nat) (r : List Nat) :
    readU32 (u32le v ++ r) = some (v % 4294967296, r) := by
  simp only [u32le, List.cons_append, List.nil_append, readU32,
    Option.some.injEq, Prod.mk.injEq]
  exact ⟨by omega, trivial⟩

theorem u16ofS16_lt (s : Int) : u16ofS16 s < 65536 := by
  unfold u16ofS16
  omega

theorem int16ofU16_u16ofS16 (s : Int) (h1 : -32768 ≤ s) (h2 : s ≤ 32767) :
    int16ofU16 (u16ofS16 s) = s := by
  unfold int16ofU16 u16ofS16
  split <;> omega

theorem readU16_sampleBytes (s : Int) (r : List Nat) :
    readU16 (sampleBytes s ++ r) = some (u16ofS16 s, r) := by
  rw [sampleBytes, readU16_u16le, Nat.mod_eq_of_lt (u16ofS16_lt s)]

theorem sampleBytes_length (s : Int) : (sampleBytes s).length = 2 := rfl

theorem samplesToBytes_append (l1 l2 : List Int) :
    samplesToBytes (l1 ++ l2) = samplesToBytes l1 ++ samplesToBytes l2 := by
  induction l1 with
  | nil => rfl
  | cons s rest ih => simp [samplesToBytes, ih]

theorem samplesToBytes_length (l : List Int) :
    (samplesToBytes l).length = 2 * l.length := by
  induction l with
  | nil => rfl
  | cons s rest ih =>
    simp [samplesToBytes, sampleBytes_length, ih]
    omega

/-! ### Container header writers -/

/-- ASCII bytes of the literal tag RIFF. -/
def riffTag : List Nat := [82, 73, 70, 70]

/-- ASCII bytes of the literal tag WAVE. -/
def waveTag : List Nat := [87, 65, 86, 69]

/-- ASCII bytes of the literal tag fmt-space. -/
def fmtTag : List Nat := [102, 109, 116, 32]

/-- ASCII bytes of the literal tag data. -/
def dataTag : List Nat := [100, 97, 116, 97]

/-- A generic 44-byte PCM header layout with every field a parameter; the two
writers in the sources and arbitrary test containers are instances of it.
`declared` is the value of the data-chunk length field. -/
def mkWavHeaderBytes (audio_format channels sample_rate bits_per_sample declared : Nat) :
    List Nat :=
  riffTag ++ u32le (36 + declared) ++ waveTag ++
  fmtTag ++ u32le 16 ++ u16le audio_format ++ u16le channels ++ u32le sample_rate ++
  u32le (sample_rate * 2) ++ u16le 2 ++ u16le bits_per_sample ++
  dataTag ++ u32le declared

/-- wavgen.c:109-136, `write_wav_header`: num_channels = 1, bits = 16,
format = 1, block_align = 2, byte_rate = sample_rate * 2,
data_bytes = num_samples * 2 (a uint32 product, reduced mod 2^32 by the
byte-level serializer). -/
def write_wav_header (sample_rate num_samples : Nat) : List Nat :=
  riffTag ++ u32le (36 + num_samples * 2) ++ waveTag ++
  fmtTag ++ u32le 16 ++ u16le 1 ++ u16le 1 ++ u32le sample_rate ++
  u32le (sample_rate * 2) ++ u16le 2 ++ u16le 16 ++
  dataTag ++ u32le (num_samples * 2)

/-- wavproc01.c:168-190, `write_wav_header_pcm16_mono`. -/
def write_wav_header_pcm16_mono (sample_rate data_bytes : Nat) : List Nat :=
  riffTag ++ u32le (36 + data_bytes) ++ waveTag ++
  fmtTag ++ u32le 16 ++ u16le 1 ++ u16le 1 ++ u32le sample_rate ++
  u32le (sample_rate * 2) ++ u16le 2 ++ u16le 16 ++
  dataTag ++ u32le data_bytes

/-- Modelled from the spec (section 4.2): the header layout as the spec lists
it, field by field, for channel_count = 1 and bits_per_sample = 16:
RIFF tag; total-size field 36 + payload_byte_length; WAVE; fmt-space;
format-chunk length 16; format code 1; channel count 1; sample_rate;
byte_rate = sample_rate * block_align; block_align = 2; bits 16; data tag;
payload_byte_length. -/
def headerSpec (sample_rate payload_byte_length : Nat) : List Nat :=
  riffTag ++ u32le (36 + payload_byte_length) ++ waveTag ++
  fmtTag ++ u32le 16 ++ u16le 1 ++ u16le 1 ++ u32le sample_rate ++
  u32le (sample_rate * 2) ++ u16le 2 ++ u16le 16 ++
  dataTag ++ u32le payload_byte_length

theorem write_wav_header_eq_mk (sample_rate num_samples : Nat) :
    write_wav_header sample_rate num_samples =
      mkWavHeaderBytes 1 1 sample_rate 16 (num_samples * 2) := rfl

theorem write_wav_header_pcm16_mono_eq_mk (sample_rate data_bytes : Nat) :
    write_wav_header_pcm16_mono sample_rate data_bytes =
      mkWavHeaderBytes 1 1 sample_rate 16 data_bytes := rfl

theorem mkWavHeaderBytes_length (af ch sr bits d : Nat) :
    (mkWavHeaderBytes af ch sr bits d).length = 44 := by
  simp [mkWavHeaderBytes, riffTag, waveTag, fmtTag, dataTag, u16le, u32le]

/-! ### The waveform generator (wavgen.c) -/

/-- The exact IEEE double value of `2.0 * acos(-1.0)` (wavgen.c:260,
wavproc01.c:241): twice the nearest double to pi. -/
def twoPi : ℚ := 884279719003555 / 140737488355328

/-- The phase wrap step `if (phase >= two_pi) phase -= two_pi;`
(wavgen.c:274/291). -/
def phaseWrap (p : ℚ) : ℚ :=
  if p ≥ twoPi then p - twoPi else p

/-- The sine-mode oscillator phase before sample n is emitted: phase starts
at 0 (wavgen.c:259) and each sample executes
`phase += two_pi * f1 / sample_rate` followed by the wrap
(wavgen.c:270-274). -/
def sinePhase (f1 : ℚ) (sample_rate : Nat) : Nat → ℚ
  | 0 => 0
  | n + 1 => phaseWrap (sinePhase f1 sample_rate n + twoPi * f1 / (sample_rate : ℚ))

/-- One iteration of the per-sample mode dispatch (wavgen.c:267-296):
given the sample index and current phase, produce the float sample and the
next phase, or `none` for an unrecognized mode.  `sinq` abstracts the libm
`sin` function; `rnd` abstracts the stream of `frand_uniform()` draws. -/
def genStep (mode : String) (sample_rate : Nat) (seconds f1 f2 amp : ℚ)
    (sinq : ℚ → ℚ) (rnd : Nat → ℚ) (n : Nat) (phase : ℚ) : Option (ℚ × ℚ) :=
  if mode = "sine" then
    let inc := twoPi * f1 / (sample_rate : ℚ)
    some (amp * sinq phase, phaseWrap (phase + inc))
  else if mode = "noise" then
    some (amp * (2 * rnd n - 1), phase)
  else if mode = "impulse" then
    some (if n = 0 then amp else 0, phase)
  else if mode = "silence" then
    some (0, phase)
  else if mode = "chirp" then
    let t := (n : ℚ) / (sample_rate : ℚ)
    let ft := f1 + (f2 - f1) * (t / seconds)
    let inc := twoPi * ft / (sample_rate : ℚ)
    some (amp * sinq phase, phaseWrap (phase + inc))
  else none

/-- The generation loop (wavgen.c:267-300): emits `float_to_s16` of each
float sample; an unrecognized mode aborts on the first iteration before any
sample is written. -/
def genLoop (mode : String) (sample_rate : Nat) (seconds f1 f2 amp : ℚ)
    (sinq : ℚ → ℚ) (rnd : Nat → ℚ) : Nat → Nat → ℚ → Option (List Int)
  | 0, _, _ => some []
  | k + 1, n, phase =>
    match genStep mode sample_rate seconds f1 f2 amp sinq rnd n phase with
    | none => none
    | some (x, ph) =>
      match genLoop mode sample_rate seconds f1 f2 amp sinq rnd k (n + 1) ph with
      | none => none
      | some rest => some (float_to_s16 x :: rest)

/-- wavgen.c:216, `(uint32_t)llround(seconds * (double)sample_rate)`:
the long long is narrowed to uint32 mod 2^32. -/
def gen_num_samples (seconds : ℚ) (sample_rate : Nat) : Nat :=
  ((llround (seconds * (sample_rate : ℚ))) % 4294967296).toNat

/-- Observable outcome of one wavgen invocation: exit code, whether the
output file was created (`fopen` at wavgen.c:222 was reached), and every
byte written to it. -/
structure GenResult where
  exitCode : Nat
  fileCreated : Bool
  fileBytes : List Nat
  deriving DecidableEq, Repr

/-- wavgen.c:158-304, `main`, with the command line already parsed:
`argc` is the argument count (including argv[0]); `f2arg` is the value
parsed from argv[7] when present.  Usage and validation checks happen in
source order; the output file is created only after the sample-count check,
and an unrecognized mode is detected inside the loop after the header has
already been written. -/
def wavgenRun (argc : Nat) (mode : String) (sample_rate : Nat)
    (seconds f1 amp f2arg : ℚ) (sinq : ℚ → ℚ) (rnd : Nat → ℚ) : GenResult :=
  if argc < 7 then ⟨1, false, []⟩
  else if sample_rate < 8000 ∨ 192000 < sample_rate ∨ seconds ≤ 0 then ⟨1, false, []⟩
  else if mode = "chirp" ∧ argc < 8 then ⟨1, false, []⟩
  else
    let f2 := if mode = "chirp" then f2arg else 0
    if mode = "chirp" ∧ (f1 ≤ 0 ∨ f2 ≤ 0) then ⟨1, false, []⟩
    else
      let num_samples := gen_num_samples seconds sample_rate
      if num_samples = 0 then ⟨1, false, []⟩
      else
        let header := write_wav_header sample_rate num_samples
        match genLoop mode sample_rate seconds f1 f2 amp sinq rnd num_samples 0 0 with
        | none => ⟨1, true, header⟩
        | some samples => ⟨0, true, header ++ samplesToBytes samples⟩

/-! ### The WAV processor (wavproc01.c) -/

/-- wavproc01.c:93-99, `wav_info_t`. -/
structure WavInfo where
  sample_rate : Nat
  channels : Nat
  bits_per_sample : Nat
  data_bytes : Nat
  data_offset : Nat
  deriving DecidableEq, Repr

/-- The chunk-scanning loop of `read_wav_header` (wavproc01.c:129-163).
`bs` is the unread remainder of the stream, `pos` the current stream
position (ftell).  The fuel argument only bounds the iteration count; the
caller passes one more than the total stream length, which the loop can
never exhaust since every iteration consumes at least 8 bytes. -/
def scanChunks : Nat → List Nat → Nat → WavInfo → Bool → Bool → Except String WavInfo
  | 0, _, _, _, _, _ => .error "out of fuel"
  | fuel + 1, bs, pos, info, gotFmt, gotData =>
    if gotFmt ∧ gotData then .ok info
    else
      match rd4 bs with
      | none => .error "Unexpected EOF in chunks"
      | some (id, bs1) =>
        match readU32 bs1 with
        | none => .error "read_u32_le: fread failed"
        | some (chunk_size, bs2) =>
          if id = fmtTag then
            match readU16 bs2 with
            | none => .error "read_u16_le: fread failed"
            | some (audio_format, c1) =>
              match readU16 c1 with
              | none => .error "read_u16_le: fread failed"
              | some (channels, c2) =>
                match readU32 c2 with
                | none => .error "read_u32_le: fread failed"
                | some (sample_rate, c3) =>
                  match readU32 c3 with
                  | none => .error "read_u32_le: fread failed"
                  | some (_, c4) =>
                    match readU16 c4 with
                    | none => .error "read_u16_le: fread failed"
                    | some (_, c5) =>
                      match readU16 c5 with
                      | none => .error "read_u16_le: fread failed"
                      | some (bits_per_sample, c6) =>
                        if audio_format ≠ 1 then .error "Only PCM supported"
                        else if channels ≠ 1 then .error "Only mono supported"
                        else if bits_per_sample ≠ 16 then .error "Only 16-bit supported"
                        else
                          let extra := chunk_size - 16
                          scanChunks fuel (c6.drop extra) (pos + 8 + 16 + extra)
                            { info with
                              channels := channels
                              sample_rate := sample_rate
                              bits_per_sample := bits_per_sample }
                            true gotData
          else if id = dataTag then
            scanChunks fuel bs2 (pos + 8)
              { info with data_bytes := chunk_size, data_offset := pos + 8 }
              gotFmt true
          else
            let skip := if chunk_size % 2 = 1 then chunk_size + 1 else chunk_size
            scanChunks fuel (bs2.drop skip) (pos + 8 + skip) info gotFmt gotData

/-- wavproc01.c:105-166, `read_wav_header`: verify the 12-byte RIFF/WAVE
envelope and scan chunks until both the fmt and data chunks are found. -/
def read_wav_header (input : List Nat) : Except String WavInfo :=
  match rd4 input with
  | none => .error "Not a file?"
  | some (id, bs) =>
    if id ≠ riffTag then .error "Not RIFF"
    else
      match readU32 bs with
      | none => .error "read_u32_le: fread failed"
      | some (_, bs1) =>
        match rd4 bs1 with
        | none => .error "Bad header"
        | some (id2, bs2) =>
          if id2 ≠ waveTag then .error "Not WAVE"
          else scanChunks (input.length + 1) bs2 12 ⟨0, 0, 0, 0, 0⟩ false false

/-- The gain transform applied to one decoded sample
(wavproc01.c:231-233). -/
def gainStep (g : ℚ) (s : Int) : Int :=
  float_to_s16 (s16_to_float s * g)

/-- The gain processing loop (wavproc01.c:229-235): read one sample, scale,
encode, write; a truncated read aborts, keeping the bytes already written. -/
def procLoopGain (g : ℚ) : Nat → List Nat → List Nat × Bool
  | 0, _ => ([], true)
  | k + 1, bs =>
    match readU16 bs with
    | none => ([], false)
    | some (v, rest) =>
      let s := int16ofU16 v
      let y := gainStep g s
      let out := procLoopGain g k rest
      (sampleBytes y ++ out.1, out.2)

/-- The one-pole low-pass update `y1 = y1 + a * (x - y1)`
(wavproc01.c:250). -/
def lpfStep (a y x : ℚ) : ℚ :=
  y + a * (x - y)

/-- The filter coefficient (wavproc01.c:241-244): dt = 1/sample_rate,
rc = 1/(two_pi * cutoff), a = dt / (rc + dt). -/
def lpfCoeff (cutoff : ℚ) (sample_rate : Nat) : ℚ :=
  let dt : ℚ := 1 / (sample_rate : ℚ)
  let rc : ℚ := 1 / (twoPi * cutoff)
  dt / (rc + dt)

/-- The low-pass processing loop (wavproc01.c:246-253), with filter state
`y1` carried across samples. -/
def procLoopLpf (a : ℚ) : Nat → ℚ → List Nat → List Nat × Bool
  | 0, _, _ => ([], true)
  | k + 1, y1, bs =>
    match readU16 bs with
    | none => ([], false)
    | some (v, rest) =>
      let s := int16ofU16 v
      let y2 := lpfStep a y1 (s16_to_float s)
      let out := procLoopLpf a k y2 rest
      (sampleBytes (float_to_s16 y2) ++ out.1, out.2)

/-- Observable outcome of one wavproc invocation: exit code, whether the
output file was created (`fopen` at wavproc01.c:216 was reached), and every
byte written to it. -/
structure ProcResult where
  exitCode : Nat
  outCreated : Bool
  outBytes : List Nat
  deriving DecidableEq, Repr

/-- wavproc01.c:202-259, `main`, with the command line already parsed:
usage checks in source order (argc < 2, mode not gain/lpf, argc != 5 all
exit 2 before any file is touched); then the input header is read and
validated; only then is the output created and its header written; the
non-positive-cutoff check for lpf happens after the header write but
before any sample is read. -/
def wavprocRun (argc : Nat) (mode : String) (param : ℚ) (input : List Nat) : ProcResult :=
  if argc < 2 then ⟨2, false, []⟩
  else if ¬(mode = "gain" ∨ mode = "lpf") then ⟨2, false, []⟩
  else if argc ≠ 5 then ⟨2, false, []⟩
  else
    match read_wav_header input with
    | .error _ => ⟨1, false, []⟩
    | .ok info =>
      let header := write_wav_header_pcm16_mono info.sample_rate info.data_bytes
      let rest := input.drop info.data_offset
      let total := info.data_bytes / 2
      if mode = "gain" then
        let out := procLoopGain param total rest
        ⟨if out.2 then 0 else 1, true, header ++ out.1⟩
      else
        if param ≤ 0 then ⟨1, true, header⟩
        else
          let out := procLoopLpf (lpfCoeff param info.sample_rate) total 0 rest
          ⟨if out.2 then 0 else 1, true, header ++ out.1⟩

/-! ### Reference definitions taken from the spec's words -/

/-- Modelled from the spec: round to the nearest integer using
round-half-away-from-zero tie-breaking (spec sections 4.1 and 4.3). -/
def roundHalfAwayFromZero (x : ℚ) : Int :=
  if 0 ≤ x then ⌊x + 1/2⌋ else -⌊-x + 1/2⌋

/-- Round to the nearest integer, ties to even, written independently of
`lrint` for comparison. -/
def roundHalfToEven (x : ℚ) : Int :=
  if x - ⌊x⌋ < 1/2 then ⌊x⌋
  else if x - ⌊x⌋ > 1/2 then ⌊x⌋ + 1
  else 2 * ⌊(⌊x⌋ + 1 : ℚ) / 2⌋

/-- Modelled from the spec (section 4.1): the claimed reference encoder:
clamp the input to [-1, 1], multiply by 32767.0, round half away from
zero, clamp the rounded integer to [-32768, 32767]. -/
def encodeRefAway (x : ℚ) : Int :=
  max (-32768) (min 32767 (roundHalfAwayFromZero (max (-1) (min 1 x) * 32767)))

/-- The amended reference encoder: as `encodeRefAway` but with
round-half-to-even tie-breaking, which is what `lrintf` does under the
default rounding mode. -/
def encodeRefEven (x : ℚ) : Int :=
  max (-32768) (min 32767 (roundHalfToEven (max (-1) (min 1 x) * 32767)))

/-- Modelled from the spec (section 4.3): total sample count for a request
is round(duration_seconds * sample_rate) with round-half-away-from-zero. -/
def totalSamplesSpec (seconds : ℚ) (sample_rate : Nat) : Int :=
  roundHalfAwayFromZero (seconds * (sample_rate : ℚ))

/-- Modelled from the spec (section 4.4): time_constant = 1/(2 pi cutoff),
a = dt/(time_constant + dt) with dt = 1/sample_rate. -/
def lpfCoeffSpec (cutoff : ℚ) (sample_rate : Nat) : ℚ :=
  let dt : ℚ := 1 / (sample_rate : ℚ)
  let time_constant : ℚ := 1 / (twoPi * cutoff)
  dt / (time_constant + dt)

/-- Modelled from the spec (section 4.4): filter state y starts at 0; for
each input x, y becomes y + a*(x - y) and encode(y) is emitted.  The
function takes the current state and the remaining decoded inputs. -/
def lpfSpecOut (a : ℚ) : List ℚ → ℚ → List Int
  | [], _ => []
  | x :: xs, y =>
    let y2 := y + a * (x - y)
    float_to_s16 y2 :: lpfSpecOut a xs y2

theorem rd4_riffTag (r : List Nat) : rd4 (riffTag ++ r) = some (riffTag, r) := rfl

theorem rd4_waveTag (r : List Nat) : rd4 (waveTag ++ r) = some (waveTag, r) := rfl

theorem rd4_fmtTag (r : List Nat) : rd4 (fmtTag ++ r) = some (fmtTag, r) := rfl

theorem rd4_dataTag (r : List Nat) : rd4 (dataTag ++ r) = some (dataTag, r) := rfl

theorem dataTag_ne_fmtTag : (dataTag = fmtTag) = False := by decide

theorem dataTag_eq_dataTag : (dataTag = dataTag) = True := by decide

theorem fmtTag_eq_fmtTag : (fmtTag = fmtTag) = True := by decide

theorem riffTag_eq_riffTag : (riffTag = riffTag) = True := by decide

theorem waveTag_eq_waveTag : (waveTag = waveTag) = True := by decide

theorem read_wav_header_mk (af ch sr bits d : Nat) (p : List Nat)
    (haf : af < 65536) (hch : ch < 65536) (hsr : sr < 4294967296) (hbits : bits < 65536) :
    read_wav_header (mkWavHeaderBytes af ch sr bits d ++ p) =
      if af ≠ 1 then .error "Only PCM supported"
      else if ch ≠ 1 then .error "Only mono supported"
      else if bits ≠ 16 then .error "Only 16-bit supported"
      else .ok ⟨sr, ch, bits, d % 4294967296, 44⟩ := by
  have hlen : (mkWavHeaderBytes af ch sr bits d ++ p).length = 44 + p.length := by
    simp [List.length_append, mkWavHeaderBytes_length]
  have hin : mkWavHeaderBytes af ch sr bits d ++ p =
      riffTag ++ (u32le (36 + d) ++ (waveTag ++ (fmtTag ++ (u32le 16 ++ (u16le af ++
        (u16le ch ++ (u32le sr ++ (u32le (sr * 2) ++ (u16le 2 ++ (u16le bits ++
        (dataTag ++ (u32le d ++ p)))))))))))) := by
    simp [mkWavHeaderBytes, List.append_assoc]
  have haf2 : af % 65536 = af := Nat.mod_eq_of_lt haf
  have hch2 : ch % 65536 = ch := Nat.mod_eq_of_lt hch
  have hsr2 : sr % 4294967296 = sr := Nat.mod_eq_of_lt hsr
  have hbits2 : bits % 65536 = bits := Nat.mod_eq_of_lt hbits
  unfold read_wav_header
  rw [hlen, hin]
  simp only [rd4_riffTag, rd4_waveTag, rd4_fmtTag, rd4_dataTag, readU32_u32le,
    readU16_u16le, riffTag_eq_riffTag, waveTag_eq_waveTag, fmtTag_eq_fmtTag,
    dataTag_ne_fmtTag, dataTag_eq_dataTag, ne_eq, not_true_eq_false, if_false,
    ite_false, if_true, ite_true, not_false_eq_true, scanChunks,
    haf2, hch2, hsr2, hbits2, Bool.false_eq_true, false_and, and_false,
    Nat.reduceMod, Nat.reduceAdd, Nat.reduceSub, List.drop_zero]
  split_ifs with h1 h2 h3
  case neg => rfl
  case neg => rfl
  case neg => rfl
  case pos =>
    rw [show (44 : Nat) + p.length = 43 + p.length + 1 from by omega]
    simp only [scanChunks, rd4_dataTag, readU32_u32le, dataTag_ne_fmtTag,
      dataTag_eq_dataTag, ne_eq, if_false, ite_false, if_true, ite_true,
      Bool.false_eq_true, false_and, and_false, Nat.reduceAdd]
    rw [show (43 : Nat) + p.length = 42 + p.length + 1 from by omega]
    simp only [scanChunks, Nat.reduceAdd, and_self, if_true, ite_true]

/-! ### Generator loop lemmas -/

/-- The five mode strings the generation loop recognizes. -/
def knownMode (mode : String) : Prop :=
  mode = "sine" ∨ mode = "noise" ∨ mode = "impulse" ∨ mode = "silence" ∨ mode = "chirp"

theorem genStep_known (mode : String) (sample_rate : Nat) (seconds f1 f2 amp : ℚ)
    (sinq : ℚ → ℚ) (rnd : Nat → ℚ) (n : Nat) (phase : ℚ) (h : knownMode mode) :
    ∃ x ph, genStep mode sample_rate seconds f1 f2 amp sinq rnd n phase = some (x, ph) := by
  rcases h with h | h | h | h | h <;> subst h <;> simp [genStep]

theorem genStep_unknown (mode : String) (sample_rate : Nat) (seconds f1 f2 amp : ℚ)
    (sinq : ℚ → ℚ) (rnd : Nat → ℚ) (n : Nat) (phase : ℚ) (h : ¬knownMode mode) :
    genStep mode sample_rate seconds f1 f2 amp sinq rnd n phase = none := by
  unfold knownMode at h
  push_neg at h
  obtain ⟨h1, h2, h3, h4, h5⟩ := h
  simp [genStep, h1, h2, h3, h4, h5]

theorem genLoop_known (mode : String) (sample_rate : Nat) (seconds f1 f2 amp : ℚ)
    (sinq : ℚ → ℚ) (rnd : Nat → ℚ) (h : knownMode mode) :
    ∀ (k n : Nat) (phase : ℚ),
      ∃ xs, genLoop mode sample_rate seconds f1 f2 amp sinq rnd k n phase = some xs ∧
        xs.length = k ∧ ∀ s ∈ xs, -32767 ≤ s ∧ s ≤ 32767 := by
  intro k
  induction k with
  | zero =>
    intro n phase
    exact ⟨[], rfl, rfl, by intro s hs; cases hs⟩
  | succ m ih =>
    intro n phase
    obtain ⟨x, ph, hstep⟩ :=
      genStep_known mode sample_rate seconds f1 f2 amp sinq rnd n phase h
    obtain ⟨rest, hrest, hlen, hmem⟩ := ih (n + 1) ph
    refine ⟨float_to_s16 x :: rest, ?_, ?_, ?_⟩
    · simp only [genLoop, hstep, hrest]
    · simp [hlen]
    · intro s hs
      rcases List.mem_cons.mp hs with h1 | h1
      · subst h1
        exact float_to_s16_mem x
      · exact hmem s h1

theorem genLoop_unknown (mode : String) (sample_rate : Nat) (seconds f1 f2 amp : ℚ)
    (sinq : ℚ → ℚ) (rnd : Nat → ℚ) (h : ¬knownMode mode) (k n : Nat) (phase : ℚ)
    (hk : k ≠ 0) :
    genLoop mode sample_rate seconds f1 f2 amp sinq rnd k n phase = none := by
  cases k with
  | zero => omega
  | succ m =>
    simp only [genLoop,
      genStep_unknown mode sample_rate seconds f1 f2 amp sinq rnd n phase h]

theorem genLoop_silence (sample_rate : Nat) (seconds f1 f2 amp : ℚ)
    (sinq : ℚ → ℚ) (rnd : Nat → ℚ) :
    ∀ (k n : Nat) (phase : ℚ),
      genLoop "silence" sample_rate seconds f1 f2 amp sinq rnd k n phase =
        some (List.replicate k 0) := by
  intro k
  induction k with
  | zero => intro n phase; rfl
  | succ m ih =>
    intro n phase
    have hz : float_to_s16 0 = 0 := by norm_num [float_to_s16, lrint]
    simp [genLoop, genStep, ih (n + 1) phase, hz, List.replicate]

/-! ### Processor loop lemmas -/

theorem procLoopGain_bytes (g : ℚ) (samples : List Int) (r : List Nat)
    (h : ∀ s ∈ samples, -32768 ≤ s ∧ s ≤ 32767) :
    procLoopGain g samples.length (samplesToBytes samples ++ r) =
      (samplesToBytes (samples.map (gainStep g)), true) := by
  induction samples with
  | nil => rfl
  | cons s rest ih =>
    have hb := h s (List.mem_cons_self s rest)
    have hrec := ih (fun t ht => h t (List.mem_cons_of_mem s ht))
    simp only [List.length_cons, samplesToBytes, List.append_assoc, procLoopGain,
      readU16_sampleBytes, int16ofU16_u16ofS16 s hb.1 hb.2, hrec, List.map_cons]

theorem procLoopLpf_bytes (a : ℚ) (samples : List Int) :
    ∀ (y : ℚ) (r : List Nat), (∀ s ∈ samples, -32768 ≤ s ∧ s ≤ 32767) →
      procLoopLpf a samples.length y (samplesToBytes samples ++ r) =
        (samplesToBytes (lpfSpecOut a (samples.map s16_to_float) y), true) := by
  induction samples with
  | nil => intro y r _; rfl
  | cons s rest ih =>
    intro y r h
    have hb := h s (List.mem_cons_self s rest)
    have hrec := ih (lpfStep a y (s16_to_float s)) r
      (fun t ht => h t (List.mem_cons_of_mem s ht))
    simp only [lpfStep] at hrec
    simp only [List.length_cons, samplesToBytes, List.append_assoc, procLoopLpf,
      readU16_sampleBytes, int16ofU16_u16ofS16 s hb.1 hb.2, List.map_cons,
      lpfSpecOut, lpfStep, hrec]

/-! ### Driver pipeline lemmas -/

theorem mk_append_drop (af ch sr bits d : Nat) (p : List Nat) :
    (mkWavHeaderBytes af ch sr bits d ++ p).drop 44 = p := by
  have h := mkWavHeaderBytes_length af ch sr bits d
  rw [← h, List.drop_left]

theorem wavgenRun_ok (argc : Nat) (mode : String) (sample_rate : Nat)
    (seconds f1 amp f2arg : ℚ) (sinq : ℚ → ℚ) (rnd : Nat → ℚ)
    (h7 : 7 ≤ argc) (hr1 : 8000 ≤ sample_rate) (hr2 : sample_rate ≤ 192000)
    (hs : 0 < seconds)
    (hchirp : mode = "chirp" → 8 ≤ argc ∧ 0 < f1 ∧ 0 < f2arg)
    (hns : gen_num_samples seconds sample_rate ≠ 0) (hk : knownMode mode) :
    ∃ samples,
      wavgenRun argc mode sample_rate seconds f1 amp f2arg sinq rnd =
        ⟨0, true, write_wav_header sample_rate (gen_num_samples seconds sample_rate) ++
          samplesToBytes samples⟩ ∧
      genLoop mode sample_rate seconds f1 (if mode = "chirp" then f2arg else 0) amp sinq rnd
        (gen_num_samples seconds sample_rate) 0 0 = some samples ∧
      samples.length = gen_num_samples seconds sample_rate ∧
      ∀ s ∈ samples, -32767 ≤ s ∧ s ≤ 32767 := by
  obtain ⟨samples, hloop, hlen, hmem⟩ := genLoop_known mode sample_rate seconds f1
    (if mode = "chirp" then f2arg else 0) amp sinq rnd hk
    (gen_num_samples seconds sample_rate) 0 0
  refine ⟨samples, ?_, hloop, hlen, hmem⟩
  have hcond1 : ¬(mode = "chirp" ∧ argc < 8) := by
    rintro ⟨hc, hlt⟩
    exact absurd (hchirp hc).1 (by omega)
  have hcond2 : ¬(mode = "chirp" ∧ (f1 ≤ 0 ∨ (if mode = "chirp" then f2arg else 0) ≤ 0)) := by
    rintro ⟨hc, hbad⟩
    obtain ⟨-, hf1, hf2⟩ := hchirp hc
    rw [if_pos hc] at hbad
    rcases hbad with hb | hb <;> linarith
  simp only [wavgenRun]
  rw [if_neg (by omega),
    if_neg (by push_neg; exact ⟨by omega, by omega, by linarith⟩),
    if_neg hcond1, if_neg hcond2, if_neg hns, hloop]

theorem wavprocRun_error (mode : String) (param : ℚ) (input : List Nat) (e : String)
    (hm : mode = "gain" ∨ mode = "lpf") (he : read_wav_header input = .error e) :
    wavprocRun 5 mode param input = ⟨1, false, []⟩ := by
  unfold wavprocRun
  rw [if_neg (by omega), if_neg (not_not_intro hm), if_neg (by omega), he]

theorem read_wav_header_mk_ok (sr d : Nat) (p : List Nat) (hsr : sr < 4294967296) :
    read_wav_header (mkWavHeaderBytes 1 1 sr 16 d ++ p) =
      .ok ⟨sr, 1, 16, d % 4294967296, 44⟩ := by
  rw [read_wav_header_mk 1 1 sr 16 d p (by norm_num) (by norm_num) hsr (by norm_num)]
  norm_num

theorem wavprocRun_gain_ok (g : ℚ) (sample_rate : Nat) (samples : List Int)
    (hsr : sample_rate < 4294967296) (hlen : 2 * samples.length < 4294967296)
    (h : ∀ s ∈ samples, -32768 ≤ s ∧ s ≤ 32767) :
    wavprocRun 5 "gain" g
        (mkWavHeaderBytes 1 1 sample_rate 16 (2 * samples.length) ++ samplesToBytes samples) =
      ⟨0, true, write_wav_header_pcm16_mono sample_rate (2 * samples.length) ++
        samplesToBytes (samples.map (gainStep g))⟩ := by
  have hmod : 2 * samples.length % 4294967296 = 2 * samples.length :=
    Nat.mod_eq_of_lt hlen
  have hdiv : 2 * samples.length / 2 = samples.length := by omega
  have hpl := procLoopGain_bytes g samples [] h
  rw [List.append_nil] at hpl
  unfold wavprocRun
  rw [if_neg (by omega), if_neg (by simp), if_neg (by omega),
    read_wav_header_mk_ok sample_rate (2 * samples.length) (samplesToBytes samples) hsr]
  simp only [hmod, mk_append_drop, hdiv, hpl]
  rw [if_pos trivial, if_pos trivial]

theorem wavprocRun_lpf_nonpos (c : ℚ) (sample_rate d : Nat) (p : List Nat)
    (hsr : sample_rate < 4294967296) (hc : c ≤ 0) :
    wavprocRun 5 "lpf" c (mkWavHeaderBytes 1 1 sample_rate 16 d ++ p) =
      ⟨1, true, write_wav_header_pcm16_mono sample_rate (d % 4294967296)⟩ := by
  unfold wavprocRun
  rw [if_neg (by omega), if_neg (by simp), if_neg (by omega),
    read_wav_header_mk_ok sample_rate d p hsr]
  simp only []
  rw [if_neg (by simp), if_pos hc]

theorem wavprocRun_lpf_ok (c : ℚ) (sample_rate : Nat) (samples : List Int)
    (hsr : sample_rate < 4294967296) (hlen : 2 * samples.length < 4294967296)
    (hc : 0 < c) (h : ∀ s ∈ samples, -32768 ≤ s ∧ s ≤ 32767) :
    wavprocRun 5 "lpf" c
        (mkWavHeaderBytes 1 1 sample_rate 16 (2 * samples.length) ++ samplesToBytes samples) =
      ⟨0, true, write_wav_header_pcm16_mono sample_rate (2 * samples.length) ++
        samplesToBytes (lpfSpecOut (lpfCoeff c sample_rate) (samples.map s16_to_float) 0)⟩ := by
  have hmod : 2 * samples.length % 4294967296 = 2 * samples.length :=
    Nat.mod_eq_of_lt hlen
  have hdiv : 2 * samples.length / 2 = samples.length := by omega
  have hpl := procLoopLpf_bytes (lpfCoeff c sample_rate) samples 0 [] h
  rw [List.append_nil] at hpl
  unfold wavprocRun
  rw [if_neg (by omega), if_neg (by simp), if_neg (by omega),
    read_wav_header_mk_ok sample_rate (2 * samples.length) (samplesToBytes samples) hsr]
  simp only [hmod, mk_append_drop, hdiv, hpl]
  rw [if_neg (by simp), if_neg (not_le.mpr hc), if_pos trivial]

/-! ### Claim theorems -/

/-- Claim C1 (amended): for every 16-bit integer s other than -32768,
encode(decode(s)) = s; at the boundary, decode(-32768) = -1.0 but
encode(-1.0) = -32767 (the encoder multiplies by 32767), so the
decode-then-encode round trip holds on [-32767, 32767] and fails only at
s = -32768. -/
theorem claim_C1 (s : Int) (h1 : -32767 ≤ s) (h2 : s ≤ 32767) :
    float_to_s16 (s16_to_float s) = s ∧
    s16_to_float (-32768) = -1 ∧ float_to_s16 (-1) = -32767 :=
  ⟨encode_decode_roundtrip s h1 h2,
   by norm_num [s16_to_float],
   by norm_num [float_to_s16, lrint]⟩

/-- Claim C1, witness at s = 1234. -/
theorem claim_C1_witness :
    ((-32767 : Int) ≤ 1234 ∧ (1234 : Int) ≤ 32767) ∧
    (float_to_s16 (s16_to_float 1234) = 1234 ∧
      s16_to_float (-32768) = -1 ∧ float_to_s16 (-1) = -32767) :=
  ⟨⟨by norm_num, by norm_num⟩, claim_C1 1234 (by norm_num) (by norm_num)⟩

/-- Claim C1, counterexample: the round trip fails at s = -32768, where
encode(decode(-32768)) = encode(-1.0) = -32767, not -32768 as claimed. -/
theorem claim_C1_counterexample :
    float_to_s16 (s16_to_float (-32768)) = -32767 ∧
    float_to_s16 (s16_to_float (-32768)) ≠ -32768 := by
  have h : float_to_s16 (s16_to_float (-32768)) = -32767 := by
    norm_num [s16_to_float, float_to_s16, lrint]
  exact ⟨h, by rw [h]; norm_num⟩

/-- Claim C10 (amended): encode is total and range-safe (every output lies
in [-32768, 32767]); decode maps [-32768, 32767] into [-1, 1]; but the
preimage of exactly -1.0 is the pair -32768, -32767, not -32768 alone,
because -32767/32767 = -1 exactly. -/
theorem claim_C10 (x : ℚ) (s : Int) (h1 : -32768 ≤ s) (h2 : s ≤ 32767) :
    (-32768 ≤ float_to_s16 x ∧ float_to_s16 x ≤ 32767) ∧
    (-1 ≤ s16_to_float s ∧ s16_to_float s ≤ 1) ∧
    (s16_to_float s = -1 ↔ s = -32768 ∨ s = -32767) :=
  ⟨⟨by have := (float_to_s16_mem x).1; omega, (float_to_s16_mem x).2⟩,
   s16_to_float_mem s h1 h2, s16_to_float_eq_neg_one_iff s⟩

/-- Claim C10, witness at x = 3/2 and s = -32767. -/
theorem claim_C10_witness :
    ((-32768 : Int) ≤ -32767 ∧ (-32767 : Int) ≤ 32767) ∧
    ((-32768 ≤ float_to_s16 (3/2) ∧ float_to_s16 (3/2) ≤ 32767) ∧
     (-1 ≤ s16_to_float (-32767) ∧ s16_to_float (-32767) ≤ 1) ∧
     (s16_to_float (-32767) = -1 ↔ (-32767 : Int) = -32768 ∨ (-32767 : Int) = -32767)) :=
  ⟨⟨by norm_num, by norm_num⟩, claim_C10 (3/2) (-32767) (by norm_num) (by norm_num)⟩

/-- Claim C10, counterexample: -32768 is not the only input decoded to
exactly -1.0, since decode(-32767) = -32767/32767 = -1.0 as well. -/
theorem claim_C10_counterexample :
    s16_to_float (-32767) = -1 ∧ ((-32767 : Int) ≠ -32768) := by
  constructor
  · norm_num [s16_to_float]
  · norm_num

/-- Claim C5 (amended): the sine-mode phase accumulator stays in
[0, two_pi) after every per-sample update provided 0 ≤ f1 ≤ sample_rate;
for f1 > sample_rate the single subtraction cannot bring the phase back
below two_pi, so the invariant fails for some frequencies the generator
accepts. -/
theorem claim_C5 (f1 : ℚ) (sample_rate : Nat) (n : Nat)
    (h0 : 0 ≤ f1) (h1 : f1 ≤ (sample_rate : ℚ)) (hr : 0 < sample_rate) :
    0 ≤ sinePhase f1 sample_rate n ∧ sinePhase f1 sample_rate n < twoPi := by
  have htp : 0 < twoPi := by norm_num [twoPi]
  have hrq : 0 < (sample_rate : ℚ) := by exact_mod_cast hr
  have hinc0 : 0 ≤ twoPi * f1 / (sample_rate : ℚ) := by positivity
  have hinc1 : twoPi * f1 / (sample_rate : ℚ) ≤ twoPi := by
    rw [div_le_iff₀ hrq]
    nlinarith
  induction n with
  | zero => exact ⟨le_refl 0, htp⟩
  | succ m ih =>
    obtain ⟨ih0, ih1⟩ := ih
    simp only [sinePhase, phaseWrap]
    split
    · constructor <;> linarith
    · constructor
      · linarith
      · linarith [not_le.mp (by assumption : ¬ sinePhase f1 sample_rate m +
          twoPi * f1 / (sample_rate : ℚ) ≥ twoPi)]

/-- Claim C5, witness at f1 = 440, sample_rate = 44100, n = 3. -/
theorem claim_C5_witness :
    ((0 : ℚ) ≤ 440 ∧ (440 : ℚ) ≤ ((44100 : Nat) : ℚ) ∧ 0 < 44100) ∧
    (0 ≤ sinePhase 440 44100 3 ∧ sinePhase 440 44100 3 < twoPi) :=
  ⟨⟨by norm_num, by norm_num, by norm_num⟩,
   claim_C5 440 44100 3 (by norm_num) (by norm_num) (by norm_num)⟩

/-- Claim C5, counterexample: with sample_rate = 8000 (accepted) and
f1 = 16000 (sine mode does not validate f1), the increment is 2*two_pi and
after the first update the wrapped phase equals two_pi exactly, which is
not inside [0, two_pi). -/
theorem claim_C5_counterexample :
    sinePhase 16000 8000 1 = twoPi ∧ ¬ sinePhase 16000 8000 1 < twoPi := by
  have h : sinePhase 16000 8000 1 = twoPi := by
    norm_num [sinePhase, phaseWrap, twoPi]
  exact ⟨h, by rw [h]; exact lt_irrefl _⟩

theorem llround_eq_spec (x : ℚ) : llround x = roundHalfAwayFromZero x := rfl

/-- Claim C7 (amended): the sample count is the uint32 narrowing of
llround(seconds * sample_rate), that is, round-half-away-from-zero reduced
mod 2^32; it equals round(seconds * sample_rate) exactly whenever that
value fits in 32 bits, and a zero count makes the generator exit with
status 1 before the output file is created. -/
theorem claim_C7 (seconds : ℚ) (sample_rate : Nat) (mode : String)
    (f1 amp f2arg : ℚ) (sinq : ℚ → ℚ) (rnd : Nat → ℚ) :
    ((gen_num_samples seconds sample_rate : Int) =
      totalSamplesSpec seconds sample_rate % 4294967296) ∧
    (0 ≤ totalSamplesSpec seconds sample_rate →
      totalSamplesSpec seconds sample_rate < 4294967296 →
      (gen_num_samples seconds sample_rate : Int) = totalSamplesSpec seconds sample_rate) ∧
    (gen_num_samples seconds sample_rate = 0 → ∀ argc,
      wavgenRun argc mode sample_rate seconds f1 amp f2arg sinq rnd = ⟨1, false, []⟩) := by
  have hbase : (gen_num_samples seconds sample_rate : Int) =
      totalSamplesSpec seconds sample_rate % 4294967296 := by
    simp only [gen_num_samples, totalSamplesSpec, llround_eq_spec]
    rw [Int.toNat_of_nonneg (Int.emod_nonneg _ (by norm_num))]
  refine ⟨hbase, ?_, ?_⟩
  · intro hge hlt
    rw [hbase, Int.emod_eq_of_lt hge hlt]
  · intro h0 argc
    simp only [wavgenRun]
    split_ifs <;> rfl

/-- Claim C7, witness: at seconds = 1/100000 and rate 8000 the rounded
count is 0 and the generator fails before creating the file. -/
theorem claim_C7_witness :
    ((gen_num_samples (1/100000) 8000 : Int) =
      totalSamplesSpec (1/100000) 8000 % 4294967296) ∧
    gen_num_samples (1/100000) 8000 = 0 ∧
    wavgenRun 7 "sine" 8000 (1/100000) 440 1 0 (fun _ => 0) (fun _ => 0) = ⟨1, false, []⟩ := by
  have hc := claim_C7 (1/100000) 8000 "sine" 440 1 0 (fun _ => 0) (fun _ => 0)
  have h0 : gen_num_samples (1/100000) 8000 = 0 := by
    norm_num [gen_num_samples, llround]
  exact ⟨hc.1, h0, hc.2.2 h0 7⟩

/-- Claim C7, counterexample: at seconds = 600000 and rate 8000 the spec's
count round(600000*8000) = 4800000000 does not fit in 32 bits; the code's
uint32 narrowing yields 505032704 samples instead. -/
theorem claim_C7_counterexample :
    gen_num_samples 600000 8000 = 505032704 ∧
    totalSamplesSpec 600000 8000 = 4800000000 ∧
    (505032704 : Nat) ≠ 4800000000 := by
  refine ⟨?_, ?_, by norm_num⟩
  · norm_num [gen_num_samples, llround]
    rfl
  · norm_num [totalSamplesSpec, roundHalfAwayFromZero]

theorem gen_num_samples_one_44100 : gen_num_samples 1 44100 = 44100 := by
  norm_num [gen_num_samples, llround]
  rfl

theorem sineExample_fileBytes_length :
    (wavgenRun 7 "sine" 44100 1 440 (1/2) 0 (fun _ => 0) (fun _ => 0)).fileBytes.length
      = 88244 := by
  obtain ⟨samples, hrun, hloop, hlen, hmem⟩ :=
    wavgenRun_ok 7 "sine" 44100 1 440 (1/2) 0 (fun _ => 0) (fun _ => 0)
      (le_refl 7) (by norm_num) (by norm_num) (by norm_num)
      (by intro h; exact absurd h (by decide))
      (by rw [gen_num_samples_one_44100]; norm_num)
      (Or.inl rfl)
  rw [hrun]
  simp [List.length_append, write_wav_header_eq_mk, mkWavHeaderBytes_length,
    samplesToBytes_length, hlen, gen_num_samples_one_44100]

/-- Claim C9 (amended): both writers emit exactly the 44-byte layout of the
spec with the RIFF total-size field 36 + payload length and the data-chunk
field 2 * num_samples; but for the 1-second 44100 Hz sine example the file
is 44 + 88200 = 88244 bytes (not 44144) and the RIFF size field holds
36 + 88200 = 88236 (not 44108). -/
theorem claim_C9 (sample_rate num_samples data_bytes : Nat) :
    write_wav_header sample_rate num_samples = headerSpec sample_rate (num_samples * 2) ∧
    write_wav_header_pcm16_mono sample_rate data_bytes = headerSpec sample_rate data_bytes ∧
    (headerSpec sample_rate data_bytes).length = 44 ∧
    (wavgenRun 7 "sine" 44100 1 440 (1/2) 0 (fun _ => 0) (fun _ => 0)).fileBytes.length
      = 44 + 88200 ∧
    (readU32 ((write_wav_header 44100 44100).drop 4)).map Prod.fst = some (36 + 88200) := by
  refine ⟨rfl, rfl, ?_, ?_, ?_⟩
  · have h : headerSpec sample_rate data_bytes =
        mkWavHeaderBytes 1 1 sample_rate 16 data_bytes := rfl
    rw [h, mkWavHeaderBytes_length]
  · rw [sineExample_fileBytes_length]
  · decide

/-- Claim C9, counterexample: the spec's example numbers are inconsistent
with its own data_bytes = 88200: the real file size is 88244, not 44144,
and the RIFF total-size field is 88236, not 44108. -/
theorem claim_C9_counterexample :
    (wavgenRun 7 "sine" 44100 1 440 (1/2) 0 (fun _ => 0) (fun _ => 0)).fileBytes.length
      = 88244 ∧
    (88244 : Nat) ≠ 44144 ∧
    (readU32 ((write_wav_header 44100 44100).drop 4)).map Prod.fst = some 88236 ∧
    (88236 : Nat) ≠ 44108 := by
  refine ⟨sineExample_fileBytes_length, by norm_num, by decide, by norm_num⟩

/-- An unrecognized generator mode with otherwise valid arguments: the
file is created and the header written before the loop detects the mode. -/
theorem wavgenRun_unknown_mode (mode : String) (sample_rate : Nat)
    (seconds f1 amp f2arg : ℚ) (sinq : ℚ → ℚ) (rnd : Nat → ℚ)
    (hr1 : 8000 ≤ sample_rate) (hr2 : sample_rate ≤ 192000) (hs : 0 < seconds)
    (hmode : ¬knownMode mode) (hns : gen_num_samples seconds sample_rate ≠ 0) :
    wavgenRun 7 mode sample_rate seconds f1 amp f2arg sinq rnd =
      ⟨1, true, write_wav_header sample_rate (gen_num_samples seconds sample_rate)⟩ := by
  have hnotchirp : mode ≠ "chirp" := by
    intro h
    exact hmode (Or.inr (Or.inr (Or.inr (Or.inr h))))
  simp only [wavgenRun]
  rw [if_neg (by omega),
    if_neg (by push_neg; exact ⟨by omega, by omega, by linarith⟩),
    if_neg (by rintro ⟨hc, -⟩; exact hnotchirp hc),
    if_neg (by rintro ⟨hc, -⟩; exact hnotchirp hc),
    if_neg hns,
    genLoop_unknown mode sample_rate seconds f1 _ amp sinq rnd hmode _ 0 0 hns]

/-- Claim C2 (amended): a wrong argument count exits both tools before any
file is touched, and the processor also rejects an unrecognized mode before
any I/O; but the generator detects an unrecognized mode only inside the
sample loop, after the output file has been created and the 44-byte header
written to it, so it exits with status 1 leaving a header-only file. -/
theorem claim_C2 :
    (∀ (argc : Nat) (mode : String) (sample_rate : Nat) (seconds f1 amp f2arg : ℚ)
        (sinq : ℚ → ℚ) (rnd : Nat → ℚ), argc < 7 →
      wavgenRun argc mode sample_rate seconds f1 amp f2arg sinq rnd = ⟨1, false, []⟩) ∧
    (∀ (argc : Nat) (mode : String) (param : ℚ) (input : List Nat),
        ¬(mode = "gain" ∨ mode = "lpf") →
      wavprocRun argc mode param input = ⟨2, false, []⟩) ∧
    (∀ (argc : Nat) (mode : String) (param : ℚ) (input : List Nat),
        (mode = "gain" ∨ mode = "lpf") → argc ≠ 5 →
      wavprocRun argc mode param input = ⟨2, false, []⟩) ∧
    (∀ (mode : String) (sample_rate : Nat) (seconds f1 amp f2arg : ℚ)
        (sinq : ℚ → ℚ) (rnd : Nat → ℚ),
        8000 ≤ sample_rate → sample_rate ≤ 192000 → 0 < seconds → ¬knownMode mode →
        gen_num_samples seconds sample_rate ≠ 0 →
      wavgenRun 7 mode sample_rate seconds f1 amp f2arg sinq rnd =
        ⟨1, true, write_wav_header sample_rate (gen_num_samples seconds sample_rate)⟩) := by
  refine ⟨?_, ?_, ?_, ?_⟩
  · intro argc mode sample_rate seconds f1 amp f2arg sinq rnd h
    simp only [wavgenRun]
    rw [if_pos h]
  · intro argc mode param input hmode
    by_cases h2 : argc < 2
    · unfold wavprocRun
      rw [if_pos h2]
    · unfold wavprocRun
      rw [if_neg h2, if_pos hmode]
  · intro argc mode param input hmode hargc
    by_cases h2 : argc < 2
    · unfold wavprocRun
      rw [if_pos h2]
    · unfold wavprocRun
      rw [if_neg h2, if_neg (not_not_intro hmode), if_pos hargc]
  · intro mode sample_rate seconds f1 amp f2arg sinq rnd hr1 hr2 hs hmode hns
    exact wavgenRun_unknown_mode mode sample_rate seconds f1 amp f2arg sinq rnd
      hr1 hr2 hs hmode hns

/-- Claim C2, witness: concrete instances of the four amended components. -/
theorem claim_C2_witness :
    wavgenRun 3 "sine" 44100 1 440 1 0 (fun _ => 0) (fun _ => 0) = ⟨1, false, []⟩ ∧
    wavprocRun 5 "gai" 1 [] = ⟨2, false, []⟩ ∧
    wavprocRun 4 "gain" 1 [] = ⟨2, false, []⟩ ∧
    wavgenRun 7 "tri" 8000 1 0 0 0 (fun _ => 0) (fun _ => 0) =
      ⟨1, true, write_wav_header 8000 (gen_num_samples 1 8000)⟩ :=
  ⟨claim_C2.1 3 "sine" 44100 1 440 1 0 (fun _ => 0) (fun _ => 0) (by norm_num),
   claim_C2.2.1 5 "gai" 1 [] (by simp),
   claim_C2.2.2.1 4 "gain" 1 [] (Or.inl rfl) (by norm_num),
   claim_C2.2.2.2 "tri" 8000 1 0 0 0 (fun _ => 0) (fun _ => 0)
     (by norm_num) (by norm_num) (by norm_num)
     (by intro h; rcases h with h | h | h | h | h <;> exact absurd h (by decide))
     (by norm_num [gen_num_samples, llround])⟩

/-- Claim C2, counterexample: invoking the generator with the unrecognized
mode string tremolo and otherwise valid arguments creates the output file
and writes the 44-byte header into it before exiting with status 1, so the
process does not exit before performing I/O side effects. -/
theorem claim_C2_counterexample :
    wavgenRun 7 "tremolo" 44100 1 440 (1/2) 0 (fun _ => 0) (fun _ => 0) =
      ⟨1, true, write_wav_header 44100 44100⟩ ∧
    (write_wav_header 44100 44100).length = 44 ∧
    (wavgenRun 7 "tremolo" 44100 1 440 (1/2) 0 (fun _ => 0) (fun _ => 0)).fileCreated
      = true := by
  have hmode : ¬knownMode "tremolo" := by
    intro h
    rcases h with h | h | h | h | h <;> exact absurd h (by decide)
  have hns : gen_num_samples 1 44100 ≠ 0 := by
    rw [gen_num_samples_one_44100]
    norm_num
  have hrun := wavgenRun_unknown_mode "tremolo" 44100 1 440 (1/2) 0
    (fun _ => 0) (fun _ => 0) (by norm_num) (by norm_num) (by norm_num) hmode hns
  refine ⟨?_, ?_, ?_⟩
  · rw [hrun, gen_num_samples_one_44100]
  · rw [write_wav_header_eq_mk, mkWavHeaderBytes_length]
  · rw [hrun]

/-- Claim C8: a container whose fmt chunk declares a format code other
than 1, a channel count other than 1, or a bit depth other than 16 is
rejected by read_wav_header with a fatal format error, and the processor
then exits with status 1 without creating the output file or writing any
bytes: the input header is fully validated before the output is opened. -/
theorem claim_C8 (af ch bits sample_rate d : Nat) (p : List Nat)
    (mode : String) (param : ℚ)
    (haf : af < 65536) (hch : ch < 65536) (hbits : bits < 65536)
    (hsr : sample_rate < 4294967296)
    (hbad : af ≠ 1 ∨ ch ≠ 1 ∨ bits ≠ 16)
    (hm : mode = "gain" ∨ mode = "lpf") :
    (∃ e, read_wav_header (mkWavHeaderBytes af ch sample_rate bits d ++ p) = .error e) ∧
    wavprocRun 5 mode param (mkWavHeaderBytes af ch sample_rate bits d ++ p) =
      ⟨1, false, []⟩ := by
  have hparse := read_wav_header_mk af ch sample_rate bits d p haf hch hsr hbits
  have herr : ∃ e, read_wav_header (mkWavHeaderBytes af ch sample_rate bits d ++ p)
      = .error e := by
    rw [hparse]
    split_ifs with h1 h2 h3
    · exact ⟨_, rfl⟩
    · exact ⟨_, rfl⟩
    · exact ⟨_, rfl⟩
    · exfalso
      rcases hbad with h | h | h <;> omega
  obtain ⟨e, he⟩ := herr
  exact ⟨⟨e, he⟩, wavprocRun_error mode param _ e hm he⟩

/-- Claim C8, witness: a stereo (channel_count = 2) container is rejected
and the processor writes nothing. -/
theorem claim_C8_witness :
    (∃ e, read_wav_header (mkWavHeaderBytes 1 2 44100 16 4 ++ [0, 0, 0, 0]) = .error e) ∧
    wavprocRun 5 "gain" 2 (mkWavHeaderBytes 1 2 44100 16 4 ++ [0, 0, 0, 0]) =
      ⟨1, false, []⟩ :=
  claim_C8 1 2 16 44100 4 [0, 0, 0, 0] "gain" 2 (by norm_num) (by norm_num)
    (by norm_num) (by norm_num) (Or.inr (Or.inl (by norm_num))) (Or.inl rfl)

/-- Claim C6: the low-pass processor computes a = dt/(rc + dt) with
dt = 1/sample_rate and rc = 1/(two_pi * cutoff) exactly as the spec's
reference states, initializes y to 0, folds y := y + a*(x - y) over the
decoded samples in stream order emitting encode(y); a non-positive cutoff
exits with status 1 after the output header but before any sample is read
or any sample byte written. -/
theorem claim_C6 (cutoff : ℚ) (sample_rate : Nat) (samples : List Int)
    (hsr : sample_rate < 4294967296) (hlen : 2 * samples.length < 4294967296)
    (h : ∀ s ∈ samples, -32768 ≤ s ∧ s ≤ 32767) :
    lpfCoeff cutoff sample_rate = lpfCoeffSpec cutoff sample_rate ∧
    (0 < cutoff →
      wavprocRun 5 "lpf" cutoff
          (mkWavHeaderBytes 1 1 sample_rate 16 (2 * samples.length) ++
            samplesToBytes samples) =
        ⟨0, true, write_wav_header_pcm16_mono sample_rate (2 * samples.length) ++
          samplesToBytes (lpfSpecOut (lpfCoeffSpec cutoff sample_rate)
            (samples.map s16_to_float) 0)⟩) ∧
    (cutoff ≤ 0 →
      wavprocRun 5 "lpf" cutoff
          (mkWavHeaderBytes 1 1 sample_rate 16 (2 * samples.length) ++
            samplesToBytes samples) =
        ⟨1, true, write_wav_header_pcm16_mono sample_rate (2 * samples.length)⟩) := by
  refine ⟨rfl, ?_, ?_⟩
  · intro hc
    have hrw : lpfCoeffSpec cutoff sample_rate = lpfCoeff cutoff sample_rate := rfl
    rw [hrw]
    exact wavprocRun_lpf_ok cutoff sample_rate samples hsr hlen hc h
  · intro hc
    have := wavprocRun_lpf_nonpos cutoff sample_rate (2 * samples.length)
      (samplesToBytes samples) hsr hc
    rw [this, Nat.mod_eq_of_lt hlen]

/-- Claim C6, witness: cutoff 1000 Hz at rate 8000 on a two-sample
container, and the non-positive-cutoff rejection at cutoff 0. -/
theorem claim_C6_witness :
    (lpfCoeff 1000 8000 = lpfCoeffSpec 1000 8000 ∧
      ((0 : ℚ) < 1000 →
        wavprocRun 5 "lpf" 1000
            (mkWavHeaderBytes 1 1 8000 16 (2 * [100, -200].length) ++
              samplesToBytes [100, -200]) =
          ⟨0, true, write_wav_header_pcm16_mono 8000 (2 * [100, -200].length) ++
            samplesToBytes (lpfSpecOut (lpfCoeffSpec 1000 8000)
              ([100, -200].map s16_to_float) 0)⟩) ∧
      ((1000 : ℚ) ≤ 0 →
        wavprocRun 5 "lpf" 1000
            (mkWavHeaderBytes 1 1 8000 16 (2 * [100, -200].length) ++
              samplesToBytes [100, -200]) =
          ⟨1, true, write_wav_header_pcm16_mono 8000 (2 * [100, -200].length)⟩)) ∧
    wavprocRun 5 "lpf" 1000
        (mkWavHeaderBytes 1 1 8000 16 (2 * [100, -200].length) ++
          samplesToBytes [100, -200]) =
      ⟨0, true, write_wav_header_pcm16_mono 8000 (2 * [100, -200].length) ++
        samplesToBytes (lpfSpecOut (lpfCoeffSpec 1000 8000)
          ([100, -200].map s16_to_float) 0)⟩ := by
  have hc := claim_C6 1000 8000 [100, -200] (by norm_num) (by norm_num) (by decide)
  exact ⟨hc, hc.2.1 (by norm_num)⟩

theorem lrint_eq_roundHalfToEven (x : ℚ) : lrint x = roundHalfToEven x := by
  unfold lrint roundHalfToEven
  have hk1 := Int.floor_le ((⌊x⌋ + 1 : ℚ) / 2)
  have hk2 := Int.lt_floor_add_one ((⌊x⌋ + 1 : ℚ) / 2)
  set k := ⌊(⌊x⌋ + 1 : ℚ) / 2⌋ with hkdef
  have h1 : 2 * k ≤ ⌊x⌋ + 1 := by
    have : (2 : ℚ) * (k : ℚ) ≤ (⌊x⌋ : ℚ) + 1 := by
      linarith
    exact_mod_cast this
  have h2 : ⌊x⌋ + 1 < 2 * k + 2 := by
    have : ((⌊x⌋ : ℚ) + 1) < 2 * (k : ℚ) + 2 := by
      linarith
    exact_mod_cast this
  split
  · rfl
  · split
    · rfl
    · split
      · omega
      · omega

/-- Claim C4 (amended): the encoder equals the spec's reference pipeline
(clamp to [-1,1], scale by 32767, round to nearest, clamp to int16 range)
with the tie-breaking rule round-half-to-even, the behavior of lrintf under
the default rounding mode, rather than round-half-away-from-zero. -/
theorem claim_C4 (x : ℚ) : float_to_s16 x = encodeRefEven x := by
  have hclampQ : (if (if x > 1 then 1 else x) < -1 then -1
      else (if x > 1 then 1 else x)) = max (-1) (min 1 x) := by
    split_ifs with hx1 hx2 hx3
    · exfalso
      linarith
    · rw [min_eq_left (le_of_lt hx1), max_eq_right (by norm_num : (-1 : ℚ) ≤ 1)]
    · rw [min_eq_right (by linarith), max_eq_left (by linarith)]
    · rw [min_eq_right (by linarith), max_eq_right (by linarith)]
  have hclampI : ∀ v : Int, (if (if v > 32767 then 32767 else v) < -32768 then -32768
      else (if v > 32767 then 32767 else v)) = max (-32768) (min 32767 v) := by
    intro v
    simp only [max_def, min_def]
    split_ifs <;> omega
  simp only [float_to_s16, encodeRefEven, ← lrint_eq_roundHalfToEven]
  rw [hclampQ, hclampI]

/-- Claim C4, counterexample: at x = 5/65534 the scaled value is exactly
5/2; lrintf rounds the tie to the even integer 2, while the spec's
round-half-away-from-zero reference yields 3. -/
theorem claim_C4_counterexample :
    float_to_s16 (5/65534) = 2 ∧ encodeRefAway (5/65534) = 3 ∧
    float_to_s16 (5/65534) ≠ encodeRefAway (5/65534) := by
  have h1 : float_to_s16 (5/65534) = 2 := by
    norm_num [float_to_s16, lrint]
  have h2 : encodeRefAway (5/65534) = 3 := by
    norm_num [encodeRefAway, roundHalfAwayFromZero, min_def, max_def]
  exact ⟨h1, h2, by rw [h1, h2]; norm_num⟩

theorem gainStep_one (s : Int) (h1 : -32767 ≤ s) (h2 : s ≤ 32767) :
    gainStep 1 s = s := by
  unfold gainStep
  rw [mul_one]
  exact encode_decode_roundtrip s h1 h2

/-- Claim C3 (amended): for every generated container with fewer than 2^31
samples, processing with gain 1.0 reproduces the entire input file byte for
byte (header included, hence the payload in particular); at 2^31 samples or
more the generator's wrapped uint32 data-size field makes the processor
truncate the payload. -/
theorem claim_C3 (mode : String) (sample_rate : Nat) (seconds f1 amp f2arg : ℚ)
    (sinq : ℚ → ℚ) (rnd : Nat → ℚ)
    (hk : knownMode mode) (hr1 : 8000 ≤ sample_rate) (hr2 : sample_rate ≤ 192000)
    (hs : 0 < seconds) (hchirp : mode = "chirp" → 0 < f1 ∧ 0 < f2arg)
    (hns : gen_num_samples seconds sample_rate ≠ 0)
    (hsmall : gen_num_samples seconds sample_rate < 2147483648) :
    wavprocRun 5 "gain" 1
        (wavgenRun 8 mode sample_rate seconds f1 amp f2arg sinq rnd).fileBytes =
      ⟨0, true, (wavgenRun 8 mode sample_rate seconds f1 amp f2arg sinq rnd).fileBytes⟩ := by
  obtain ⟨samples, hrun, hloop, hlen, hmem⟩ :=
    wavgenRun_ok 8 mode sample_rate seconds f1 amp f2arg sinq rnd
      (by omega) hr1 hr2 hs
      (fun hc => ⟨le_refl 8, (hchirp hc).1, (hchirp hc).2⟩) hns hk
  rw [hrun]
  simp only [write_wav_header_eq_mk]
  rw [show gen_num_samples seconds sample_rate * 2 = 2 * samples.length by omega]
  have hmem2 : ∀ s ∈ samples, -32768 ≤ s ∧ s ≤ 32767 :=
    fun s hs2 => ⟨by have := (hmem s hs2).1; omega, (hmem s hs2).2⟩
  rw [wavprocRun_gain_ok 1 sample_rate samples (by omega) (by omega) hmem2]
  have hmap : samples.map (gainStep 1) = samples := by
    have hcong : ∀ s ∈ samples, gainStep 1 s = id s :=
      fun s hs2 => gainStep_one s (hmem s hs2).1 (hmem s hs2).2
    rw [List.map_congr_left hcong, List.map_id]
  rw [hmap, write_wav_header_pcm16_mono_eq_mk]

/-- Claim C3, witness: an 8-sample impulse container at rate 8000 passes
through gain 1.0 unchanged. -/
theorem claim_C3_witness :
    wavprocRun 5 "gain" 1
        (wavgenRun 8 "impulse" 8000 (1/1000) 0 (1/2) 0 (fun _ => 0)
          (fun _ => 0)).fileBytes =
      ⟨0, true, (wavgenRun 8 "impulse" 8000 (1/1000) 0 (1/2) 0 (fun _ => 0)
        (fun _ => 0)).fileBytes⟩ :=
  claim_C3 "impulse" 8000 (1/1000) 0 (1/2) 0 (fun _ => 0) (fun _ => 0)
    (Or.inr (Or.inr (Or.inl rfl))) (by norm_num) (by norm_num) (by norm_num)
    (by intro h; exact absurd h (by decide))
    (by norm_num [gen_num_samples, llround])
    (by norm_num [gen_num_samples, llround])

/-- Claim C3, counterexample: a generated silence container of 2^31 samples
has a data-size field that wraps to 0 mod 2^32, so gain 1.0 produces an
output with an empty payload while the input payload region has 2^32
bytes: the payload is not reproduced byte for byte for every generated
container. -/
theorem claim_C3_counterexample :
    ((wavprocRun 5 "gain" 1
        (wavgenRun 7 "silence" 192000 (4194304/375) 0 0 0 (fun _ => 0)
          (fun _ => 0)).fileBytes).outBytes.drop 44).length = 0 ∧
    ((wavgenRun 7 "silence" 192000 (4194304/375) 0 0 0 (fun _ => 0)
        (fun _ => 0)).fileBytes.drop 44).length = 4294967296 := by
  have hns : gen_num_samples (4194304/375) 192000 = 2147483648 := by
    norm_num [gen_num_samples, llround]
    rfl
  have hfile : wavgenRun 7 "silence" 192000 (4194304/375) 0 0 0 (fun _ => 0)
      (fun _ => 0) =
      ⟨0, true, write_wav_header 192000 2147483648 ++
        samplesToBytes (List.replicate 2147483648 0)⟩ := by
    simp only [wavgenRun]
    rw [if_neg (by omega),
      if_neg (by push_neg; exact ⟨by omega, by omega, by norm_num⟩),
      if_neg (by rintro ⟨hc, -⟩; exact absurd hc (by decide)),
      if_neg (by rintro ⟨hc, -⟩; exact absurd hc (by decide)),
      hns, if_neg (by norm_num), genLoop_silence]
  refine ⟨?_, ?_⟩
  · rw [hfile]
    simp only [write_wav_header_eq_mk]
    rw [show (2147483648 : Nat) * 2 = 4294967296 from by norm_num]
    unfold wavprocRun
    rw [if_neg (by omega), if_neg (by simp), if_neg (by omega),
      read_wav_header_mk_ok 192000 4294967296 _ (by norm_num)]
    simp [procLoopGain, write_wav_header_pcm16_mono_eq_mk, mkWavHeaderBytes_length,
      List.length_drop]
  · rw [hfile]
    simp only [write_wav_header_eq_mk]
    rw [mk_append_drop, samplesToBytes_length, List.length_replicate]
